import Mathlib

/-!
Verification of the thunder-muscle email dataset tool (`tm.py`,
`lib/config.py`, `analyzers/analyze_temporal.py`) against its
natural-language specification.

The Python code is shallowly embedded: strings are Lean `String`s
manipulated through their character lists, absent values (`None`, SQL
`NULL`) are `Option`, Python truthiness of each value type is modelled
explicitly at each use site, and the CPython `re` engine is a parameter
(`RegexEngine`) except for the two concrete regular expressions inside
`extract_domain`, which are embedded directly as character scanners with
the leftmost-match / first-alternative / greedy backtracking semantics
of `re.search`.  Case folding is modelled for ASCII, which is the range
Python's `str.lower` and the code's domain alphabet agree on.
-/

namespace ThunderMuscle

/-- ASCII lower-casing of one character, as `str.lower` acts on ASCII. -/
def lowerChar (c : Char) : Char :=
  if 'A' ≤ c ∧ c ≤ 'Z' then Char.ofNat (c.toNat + 32) else c

/-- `s.lower()` (ASCII fragment). -/
def pyLower (s : String) : String := ⟨s.data.map lowerChar⟩

/-- `s.startswith(pre)`. -/
def strStartsWith (s pre : String) : Bool := pre.data.isPrefixOf s.data

/-- `s.endswith(suf)`. -/
def strEndsWith (s suf : String) : Bool := suf.data.isSuffixOf s.data

/-- Substring test on character lists (`needle in hay` for Python strings). -/
def containsSub (hay needle : List Char) : Bool :=
  match hay with
  | [] => needle.isEmpty
  | _ :: t => needle.isPrefixOf hay || containsSub t needle

/-- `needle in hay` for Python strings. -/
def strContains (hay needle : String) : Bool := containsSub hay.data needle.data

/-- `s[n:]` (slicing by code points). -/
def strDrop (s : String) (n : Nat) : String := ⟨s.data.drop n⟩

/-- Python `\s` on the ASCII range (space, tab, newline, carriage return,
vertical tab, form feed); the inputs of interest are ASCII. -/
def pyIsSpace (c : Char) : Bool :=
  c = ' ' || c = '\t' || c = '\n' || c = '\r' || c = '\x0b' || c = '\x0c'

/-- A character matched by `[^\s<>]` in `extract_domain`'s first regex. -/
def isTokChar (c : Char) : Bool := !(pyIsSpace c) && c ≠ '<' && c ≠ '>'

/-- A character matched by `[a-zA-Z0-9.-]` in `extract_domain`'s second
regex. -/
def isDomChar (c : Char) : Bool := c.isAlpha || c.isDigit || c = '.' || c = '-'

/-- `re.search(r'<([^>]+)>|([^\s<>]+@[^\s<>]+)', s)`, returning the
characters of `match.group(1) or match.group(2)`.

Positions are scanned left to right; at each position alternative 1
(angle-bracketed, group 1 is the non-empty run before the next `>`)
is preferred; alternative 2 matches when the maximal run of `[^\s<>]`
characters starting here contains an `@` that is neither its first nor
its last character — greedy backtracking then makes the whole run the
match of `[^\s<>]+@[^\s<>]+`. -/
def findToken : List Char → Option (List Char)
  | [] => none
  | c :: rest =>
    if c = '<' then
      let g := rest.takeWhile (fun d => d ≠ '>')
      if g.length ≠ 0 && g.length < rest.length then some g
      else findToken rest
    else
      let run := (c :: rest).takeWhile isTokChar
      if isTokChar c && ((run.drop 1).dropLast.contains '@') then some run
      else findToken rest

/-- `re.search(r'@([a-zA-Z0-9.-]+)', tok)`, returning the characters of
`group(1)`: the maximal `[a-zA-Z0-9.-]` run after the first `@` that is
followed by at least one such character. -/
def findDomain : List Char → Option (List Char)
  | [] => none
  | c :: rest =>
    if c = '@' then
      let run := rest.takeWhile isDomChar
      if run.isEmpty then findDomain rest else some run
    else findDomain rest

/-- `tm.extract_domain`:  empty input is `"unknown"`; otherwise the first
address-like token is located, its `@`-suffix extracted and lower-cased;
each failure yields `"malformed"`. -/
def extract_domain (s : String) : String :=
  if s = "" then "unknown"
  else
    match findToken s.data with
    | none => "malformed"
    | some tok =>
      match findDomain tok with
      | none => "malformed"
      | some dom => ⟨dom.map lowerChar⟩

example : extract_domain "Name <user@Example.COM>" = "example.com" := by decide
example : extract_domain "" = "unknown" := by decide
example : extract_domain "not an address" = "malformed" := by decide
example : extract_domain "user@" = "malformed" := by decide
example : extract_domain "a b@c.D e" = "c.d" := by decide
example : extract_domain "<>x@y" = "y" := by decide
example : extract_domain "x<a>y@z" = "malformed" := by decide

/-- One normalized email record (the JSON objects produced by
`extract_complete_dataset` and consumed by every other operation).
The Python `from` and `to` keys are `fromField` and `toField` here
(both words are reserved in Lean). -/
structure Email where
  message_id : String := ""
  date : String := ""
  fromField : String := ""
  from_domain : String := ""
  toField : String := ""
  subject : String := ""
  folder : String := ""
  body : String := ""
  has_body : Bool := false
deriving Repr, DecidableEq

/-- The CPython `re` engine, abstracted: `compiles pat` is whether
`re.compile(pat, ...)` succeeds (independent of flags), and
`search cs pat hay` is whether the pattern compiled with
`0 if cs else re.IGNORECASE` is found anywhere in `hay`. -/
structure RegexEngine where
  compiles : String → Bool
  search : Bool → String → String → Bool

/-- The `key == 'domain'` branch of `filter_emails`: wildcard suffix
match, else regex search, degrading to exact case-insensitive equality
when the pattern does not compile. -/
def domainFilter (eng : RegexEngine) (pat : String) (es : List Email) : List Email :=
  if strStartsWith pat "*." then
    let suffix := pyLower (strDrop pat 2)
    es.filter (fun e => strEndsWith (pyLower e.from_domain) suffix)
  else if eng.compiles pat then
    es.filter (fun e => eng.search false pat e.from_domain)
  else
    es.filter (fun e => pyLower e.from_domain == pyLower pat)

/-- Python `l[:n]`: a nonnegative stop keeps the first `n` elements, a
negative stop drops the last `-n`. -/
def pySliceTo (n : Int) (l : List α) : List α :=
  if 0 ≤ n then l.take n.toNat else l.take (l.length - (-n).toNat)

/-- One keyword argument of `filter_emails`, with the value type the CLI
supplies for that key (argparse: optional strings, a `store_true` flag,
an optional int); unknown keys are ignored by the loop. -/
inductive FilterKV where
  | domain (v : Option String)
  | year (v : Option String)
  | subject_contains (v : Option String)
  | has_body (v : Bool)
  | limit (v : Option Int)
  | other (k : String)
deriving Repr, DecidableEq

/-- One iteration of the `for key, value in filters.items()` loop of
`filter_emails`; each branch first tests Python truthiness of the value
(`None`, `''`, `False` and `0` are falsy). -/
def applyFilterStep (eng : RegexEngine) (acc : List Email) : FilterKV → List Email
  | .domain v =>
    match v with
    | some s => if s = "" then acc else domainFilter eng s acc
    | none => acc
  | .year v =>
    match v with
    | some s => if s = "" then acc else acc.filter (fun e => strContains e.date s)
    | none => acc
  | .subject_contains v =>
    match v with
    | some s =>
      if s = "" then acc
      else acc.filter (fun e => strContains (pyLower e.subject) (pyLower s))
    | none => acc
  | .has_body v =>
    if v then acc.filter (fun e => e.has_body == true) else acc
  | .limit v =>
    match v with
    | some n => if n = 0 then acc else pySliceTo n acc
    | none => acc
  | .other _ => acc

/-- `tm.filter_emails` (the in-memory transformation; file reading and
writing elided): the filter keys are applied in the order in which the
keyword-argument dictionary iterates them. -/
def filter_emails (eng : RegexEngine) (filters : List FilterKV) (emails : List Email) : List Email :=
  filters.foldl (applyFilterStep eng) emails

/-- `tm.query_emails` (file reading elided): a falsy pattern returns the
whole dataset, an uncompilable pattern raises (modelled as `Except.error`),
and otherwise a record is kept when the pattern is found in its subject
or, only when `has_body` is set, in its body. -/
def query_emails (eng : RegexEngine) (emails : List Email)
    (pattern : Option String) (case_sensitive : Bool) : Except String (List Email) :=
  match pattern with
  | none => .ok emails
  | some p =>
    if p = "" then .ok emails
    else if eng.compiles p then
      .ok (emails.filter fun e =>
        eng.search case_sensitive p e.subject ||
        (e.has_body && eng.search case_sensitive p e.body))
    else .error "malformed pattern"

/-- A regex engine for concrete instantiations: every pattern fails to
compile. -/
def neverCompiles : RegexEngine := ⟨fun _ => false, fun _ _ _ => false⟩

/-- A regex engine for concrete instantiations: every pattern compiles
and searching means plain substring containment. -/
def substrEngine : RegexEngine := ⟨fun _ => true, fun _ pat hay => strContains hay pat⟩

/-- Lexicographic code-point comparison of character lists (Python
`str < str`). -/
def ltChars : List Char → List Char → Bool
  | [], [] => false
  | [], _ :: _ => true
  | _ :: _, [] => false
  | a :: as, b :: bs => if a < b then true else if b < a then false else ltChars as bs

/-- Python `a < b` on strings. -/
def pyStrLt (a b : String) : Bool := ltChars a.data b.data

/-- The `filters` dictionary consumed by `should_filter_email`; `none`
is an absent key (so the `dict.get` fallbacks to the backward-compat
keys apply), a present key always carries an actual value as the YAML
config produces. -/
structure ConfigFilters where
  ignore_from_domains : Option (List String) := none
  ignore_domains : Option (List String) := none
  include_from_domains : Option (List String) := none
  include_domains : Option (List String) := none
  ignore_to_domains : Option (List String) := none
  ignore_folders : Option (List String) := none
  date_after : Option String := none
  date_before : Option String := none
deriving Repr, DecidableEq

/-- The per-pattern test shared by the ignore and include domain loops
of `should_filter_email`: wildcard patterns test a lower-cased suffix,
other patterns exact lower-cased equality; `domain` is already
lower-cased by the caller. -/
def domainMatchesPattern (domain pat : String) : Bool :=
  if strStartsWith pat "*." then strEndsWith domain (pyLower (strDrop pat 2))
  else domain == pyLower pat

/-- Truthiness of an optional string (`None` and `''` are falsy). -/
def truthyOptStr : Option String → Bool
  | none => false
  | some s => !(s = "")

/-- `config.should_filter_email`: returns `true` when the record is to
be excluded.  The empty-`filters` early return of the source is
behaviourally the identity (every check below skips on an absent key)
and is not modelled separately. -/
def should_filter_email (e : Email) (f : ConfigFilters) : Bool :=
  let domain := pyLower e.from_domain
  let ignoreFrom := f.ignore_from_domains.getD (f.ignore_domains.getD [])
  if ignoreFrom.any (fun p => domainMatchesPattern domain p) then true
  else
    let includeFrom := f.include_from_domains.getD (f.include_domains.getD [])
    if !includeFrom.isEmpty && !(includeFrom.any (fun p => domainMatchesPattern domain p)) then
      true
    else
      let toText := pyLower e.toField
      let ignoreTo := f.ignore_to_domains.getD []
      if ignoreTo.any (fun p => strContains toText (pyLower p)) then true
      else
        let folder := pyLower e.folder
        if (f.ignore_folders.getD []).any (fun p => strContains folder (pyLower p)) then true
        else
          if truthyOptStr f.date_after && pyStrLt e.date (f.date_after.getD "") then true
          else if truthyOptStr f.date_before && pyStrLt (f.date_before.getD "") e.date then true
          else false

/-- One row of the Gloda SQL join in `extract_complete_dataset`:
`NULL`-able columns are `Option`. -/
structure GlodaRow where
  msg_id : Option String := none
  date : Option String := none
  from_field : Option String := none
  to_field : Option String := none
  subject : Option String := none
  body_text : Option String := none
  folder_path : Option String := none
deriving Repr, DecidableEq

/-- `bool(x)` for an optional string: `None` and `''` are falsy. -/
def pyBoolOptStr : Option String → Bool
  | none => false
  | some s => !(s = "")

/-- The record built from one row inside `extract_complete_dataset`'s
loop: every missing scalar defaults to the empty string, `from_domain`
is derived through `extract_domain`, and `has_body` is `bool(body_text)`. -/
def rowToEmail (r : GlodaRow) : Email :=
  { message_id :=
      match r.msg_id with
      | some m => if !(m = "") && !(strStartsWith m "<") then "<" ++ m ++ ">" else m
      | none => ""
    date := r.date.getD ""
    fromField := r.from_field.getD ""
    from_domain := extract_domain (r.from_field.getD "")
    toField := r.to_field.getD ""
    subject := r.subject.getD ""
    folder := r.folder_path.getD ""
    body := r.body_text.getD ""
    has_body := pyBoolOptStr r.body_text }

/-- The result of a successful `datetime.strptime(s, "%Y-%m-%d %H:%M:%S")`. -/
structure PyDateTime where
  year : Nat
  month : Nat
  day : Nat
  hour : Nat
  minute : Nat
  second : Nat
deriving Repr, DecidableEq

/-- Numeric value of an ASCII digit. -/
def digitVal (c : Char) : Nat := c.toNat - '0'.toNat

/-- Candidates for CPython's `%Y` directive, regex `\d\d\d\d`, in
priority order as pairs (value, remaining input). -/
def yCands : List Char → List (Nat × List Char)
  | a :: b :: c :: d :: rest =>
    if a.isDigit && b.isDigit && c.isDigit && d.isDigit then
      [(1000 * digitVal a + 100 * digitVal b + 10 * digitVal c + digitVal d, rest)]
    else []
  | _ => []

/-- Candidates for `%m`, regex alternatives in order: `1[0-2]`, `0[1-9]`,
`[1-9]`. -/
def moCands : List Char → List (Nat × List Char)
  | [] => []
  | a :: rest =>
    (match rest with
     | b :: rest2 =>
       (if a = '1' && '0' ≤ b && b ≤ '2' then [(10 + digitVal b, rest2)] else []) ++
       (if a = '0' && '1' ≤ b && b ≤ '9' then [(digitVal b, rest2)] else [])
     | [] => []) ++
    (if '1' ≤ a && a ≤ '9' then [(digitVal a, rest)] else [])

/-- Candidates for `%d`, regex alternatives in order: `3[01]`, `[12]\d`,
`0[1-9]`, `[1-9]`. -/
def dCands : List Char → List (Nat × List Char)
  | [] => []
  | a :: rest =>
    (match rest with
     | b :: rest2 =>
       (if a = '3' && ('0' ≤ b && b ≤ '1') then [(30 + digitVal b, rest2)] else []) ++
       (if ('1' ≤ a && a ≤ '2') && b.isDigit then [(10 * digitVal a + digitVal b, rest2)] else []) ++
       (if a = '0' && '1' ≤ b && b ≤ '9' then [(digitVal b, rest2)] else [])
     | [] => []) ++
    (if '1' ≤ a && a ≤ '9' then [(digitVal a, rest)] else [])

/-- Candidates for `%H`, regex alternatives in order: `2[0-3]`, `[01]\d`,
`\d`. -/
def hCands : List Char → List (Nat × List Char)
  | [] => []
  | a :: rest =>
    (match rest with
     | b :: rest2 =>
       (if a = '2' && ('0' ≤ b && b ≤ '3') then [(20 + digitVal b, rest2)] else []) ++
       (if ('0' ≤ a && a ≤ '1') && b.isDigit then [(10 * digitVal a + digitVal b, rest2)] else [])
     | [] => []) ++
    (if a.isDigit then [(digitVal a, rest)] else [])

/-- Candidates for `%M`, regex alternatives in order: `[0-5]\d`, `\d`. -/
def miCands : List Char → List (Nat × List Char)
  | [] => []
  | a :: rest =>
    (match rest with
     | b :: rest2 =>
       if ('0' ≤ a && a ≤ '5') && b.isDigit then [(10 * digitVal a + digitVal b, rest2)] else []
     | [] => []) ++
    (if a.isDigit then [(digitVal a, rest)] else [])

/-- Candidates for `%S`, regex alternatives in order: `6[0-1]`, `[0-5]\d`,
`\d`. -/
def sCands : List Char → List (Nat × List Char)
  | [] => []
  | a :: rest =>
    (match rest with
     | b :: rest2 =>
       (if a = '6' && ('0' ≤ b && b ≤ '1') then [(60 + digitVal b, rest2)] else []) ++
       (if ('0' ≤ a && a ≤ '5') && b.isDigit then [(10 * digitVal a + digitVal b, rest2)] else [])
     | [] => []) ++
    (if a.isDigit then [(digitVal a, rest)] else [])

/-- Try each candidate in priority order, backtracking into the
continuation, as the regex engine does across alternation. -/
def firstSome (cands : List (Nat × List Char)) (k : Nat → List Char → Option PyDateTime) :
    Option PyDateTime :=
  match cands with
  | [] => none
  | (v, rest) :: more =>
    match k v rest with
    | some r => some r
    | none => firstSome more k

/-- Match one literal character of the format string. -/
def matchLit (c : Char) : List Char → Option (List Char)
  | x :: rest => if x = c then some rest else none
  | [] => none

/-- Gregorian leap-year test, as `datetime` uses. -/
def isLeap (y : Nat) : Bool := y % 4 = 0 && (y % 100 ≠ 0 || y % 400 = 0)

/-- Days in a month of the proleptic Gregorian calendar. -/
def daysInMonth (y m : Nat) : Nat :=
  if m = 2 then (if isLeap y then 29 else 28)
  else if m = 4 || m = 6 || m = 9 || m = 11 then 30
  else 31

/-- The validation performed by the `datetime` constructor after the
format regex has matched: year in `MINYEAR..MAXYEAR`, a calendar-valid
day, and minutes/seconds below 60 (the regex alone accepts seconds 60
and 61, which the constructor rejects). -/
def mkDatetime (y mo d h mi s : Nat) : Option PyDateTime :=
  if 1 ≤ y ∧ y ≤ 9999 ∧ 1 ≤ mo ∧ mo ≤ 12 ∧ 1 ≤ d ∧ d ≤ daysInMonth y mo ∧
     h ≤ 23 ∧ mi ≤ 59 ∧ s ≤ 59 then
    some ⟨y, mo, d, h, mi, s⟩
  else none

/-- Anchored match of the full `"%Y-%m-%d %H:%M:%S"` format against a
character list, requiring the whole input to be consumed (CPython
raises "unconverted data remains" otherwise), followed by the
constructor validation. -/
def parse19 (l : List Char) : Option PyDateTime :=
  firstSome (yCands l) fun y r1 =>
  (matchLit '-' r1).bind fun r2 =>
  firstSome (moCands r2) fun mo r3 =>
  (matchLit '-' r3).bind fun r4 =>
  firstSome (dCands r4) fun d r5 =>
  (matchLit ' ' r5).bind fun r6 =>
  firstSome (hCands r6) fun h r7 =>
  (matchLit ':' r7).bind fun r8 =>
  firstSome (miCands r8) fun mi r9 =>
  (matchLit ':' r9).bind fun r10 =>
  firstSome (sCands r10) fun s r11 =>
  if r11.isEmpty then mkDatetime y mo d h mi s else none

/-- `analyze_temporal.parse_email_date`: `strptime` on the first 19
characters, `None` on any failure. -/
def parse_email_date (s : String) : Option PyDateTime := parse19 (s.data.take 19)

example : parse_email_date "2023-01-15 10:30:00" = some ⟨2023, 1, 15, 10, 30, 0⟩ := by decide
example : parse_email_date "2023-01-15 10:30:00.123456" = some ⟨2023, 1, 15, 10, 30, 0⟩ := by
  decide
example : parse_email_date "2023-2-5 3:4:5" = some ⟨2023, 2, 5, 3, 4, 5⟩ := by decide
example : parse_email_date "garbage" = none := by decide
example : parse_email_date "" = none := by decide
example : parse_email_date "2023-02-30 10:00:00" = none := by decide
example : parse_email_date "2024-02-29 00:00:00" = some ⟨2024, 2, 29, 0, 0, 0⟩ := by decide
example : parse_email_date "2023-01-01 00:00:61" = none := by decide
example : parse_email_date "2023-112-25 10:30:0" = none := by decide

/-- Days of the proleptic Gregorian calendar strictly before January 1
of year `y`. -/
def daysBeforeYear (y : Nat) : Nat :=
  365 * (y - 1) + (y - 1) / 4 - (y - 1) / 100 + (y - 1) / 400

/-- Days of year `y` strictly before month `m`. -/
def daysBeforeMonth (y m : Nat) : Nat :=
  (List.range (m - 1)).foldl (fun acc i => acc + daysInMonth y (i + 1)) 0

/-- `datetime.toordinal`: 0001-01-01 is day 1. -/
def toOrdinal (dt : PyDateTime) : Nat :=
  daysBeforeYear dt.year + daysBeforeMonth dt.year dt.month + dt.day

/-- `datetime.weekday`: Monday is 0; 0001-01-01 (ordinal 1) is a Monday. -/
def pyWeekday (dt : PyDateTime) : Nat := (toOrdinal dt + 6) % 7

example : pyWeekday ⟨2023, 1, 15, 0, 0, 0⟩ = 6 := by decide
example : pyWeekday ⟨2024, 2, 29, 0, 0, 0⟩ = 3 := by decide

/-- The per-bucket counters accumulated by every temporal analysis. -/
structure AggCounts where
  total : Nat
  with_body : Nat
deriving Repr, DecidableEq

/-- Increment the bucket `k` of an insertion-ordered association list,
appending a fresh bucket at the end when absent — the observable
behaviour of the `defaultdict` accumulation. -/
def bump [DecidableEq κ] (k : κ) (hasBody : Bool) :
    List (κ × AggCounts) → List (κ × AggCounts)
  | [] => [(k, ⟨1, if hasBody then 1 else 0⟩)]
  | (k', a) :: rest =>
    if k' = k then (k', ⟨a.total + 1, a.with_body + (if hasBody then 1 else 0)⟩) :: rest
    else (k', a) :: bump k hasBody rest

/-- `analyze_temporal.analyze_by_year`. -/
def analyze_by_year (emails : List Email) : List (Nat × AggCounts) :=
  emails.foldl
    (fun acc e =>
      match parse_email_date e.date with
      | some dt => bump dt.year e.has_body acc
      | none => acc)
    []

/-- Zero-padded two-digit rendering of a month (`f"{m:02d}"` for
`m ≤ 12`). -/
def pad2 (m : Nat) : String := if m < 10 then "0" ++ toString m else toString m

/-- The `f"{date_obj.year}-{date_obj.month:02d}"` bucket key. -/
def monthKey (dt : PyDateTime) : String := toString dt.year ++ "-" ++ pad2 dt.month

/-- `analyze_temporal.analyze_by_month` (optional year restriction). -/
def analyze_by_month (emails : List Email) (year : Option Int) : List (String × AggCounts) :=
  emails.foldl
    (fun acc e =>
      match parse_email_date e.date with
      | some dt =>
        if year = none ∨ year = some (dt.year : Int) then bump (monthKey dt) e.has_body acc
        else acc
      | none => acc)
    []

/-- The Monday-first weekday name table of `analyze_by_weekday`. -/
def weekdayNames : List String :=
  ["Monday", "Tuesday", "Wednesday", "Thursday", "Friday", "Saturday", "Sunday"]

/-- `analyze_temporal.analyze_by_weekday`. -/
def analyze_by_weekday (emails : List Email) : List (String × AggCounts) :=
  emails.foldl
    (fun acc e =>
      match parse_email_date e.date with
      | some dt => bump (weekdayNames.getD (pyWeekday dt) "") e.has_body acc
      | none => acc)
    []

/-- `analyze_temporal.analyze_by_hour`. -/
def analyze_by_hour (emails : List Email) : List (Nat × AggCounts) :=
  emails.foldl
    (fun acc e =>
      match parse_email_date e.date with
      | some dt => bump dt.hour e.has_body acc
      | none => acc)
    []

/-! ### Helper lemmas -/

lemma pySliceTo_sublist (n : Int) (l : List α) : (pySliceTo n l).Sublist l := by
  unfold pySliceTo
  split <;> exact List.take_sublist _ _

lemma domainFilter_sublist (eng : RegexEngine) (pat : String) (es : List Email) :
    (domainFilter eng pat es).Sublist es := by
  unfold domainFilter
  split
  · exact List.filter_sublist es
  · split
    · exact List.filter_sublist es
    · exact List.filter_sublist es

lemma applyFilterStep_sublist (eng : RegexEngine) (acc : List Email) (kv : FilterKV) :
    (applyFilterStep eng acc kv).Sublist acc := by
  cases kv with
  | domain v =>
    cases v with
    | none => exact List.Sublist.refl acc
    | some s =>
      by_cases hs : s = ""
      · simp [applyFilterStep, hs]
      · simpa [applyFilterStep, hs] using domainFilter_sublist eng s acc
  | year v =>
    cases v with
    | none => exact List.Sublist.refl acc
    | some s =>
      by_cases hs : s = "" <;> simp [applyFilterStep, hs, List.filter_sublist]
  | subject_contains v =>
    cases v with
    | none => exact List.Sublist.refl acc
    | some s =>
      by_cases hs : s = "" <;> simp [applyFilterStep, hs, List.filter_sublist]
  | has_body v =>
    cases v <;> simp [applyFilterStep, List.filter_sublist]
  | limit v =>
    cases v with
    | none => exact List.Sublist.refl acc
    | some n =>
      by_cases hn : n = 0
      · simp [applyFilterStep, hn]
      · simpa [applyFilterStep, hn] using pySliceTo_sublist n acc
  | other k => exact List.Sublist.refl acc

/-! ### C7 -/

/-- C7: for every regex engine, FilterSpec and dataset, the output of
`filter_emails` is a subsequence of the input — filtering never
reorders, only removes, and surviving records are unchanged. -/
theorem filter_emails_sublist (eng : RegexEngine) (fs : List FilterKV) (es : List Email) :
    (filter_emails eng fs es).Sublist es := by
  induction fs generalizing es with
  | nil => exact List.Sublist.refl es
  | cons kv rest ih =>
    exact List.Sublist.trans (ih (applyFilterStep eng es kv)) (applyFilterStep_sublist eng es kv)

/-! ### C1 -/

/-- A record without a body. -/
def e1 : Email := { subject := "hello" }

/-- A record with a body. -/
def e2 : Email := { subject := "hi", body := "text", has_body := true }

/-- C1 counterexample: with the `limit` key iterated before `has_body`,
`filter_emails` truncates first, so the result is not the first record
of the fully filtered sequence. -/
theorem limit_key_order_matters :
    filter_emails substrEngine [.limit (some 1), .has_body true] [e1, e2] = [] ∧
    (filter_emails substrEngine [.has_body true] [e1, e2]).take (1 : Int).toNat = [e2] ∧
    filter_emails substrEngine [.limit (some 1), .has_body true] [e1, e2] ≠
      (filter_emails substrEngine [.has_body true] [e1, e2]).take (1 : Int).toNat := by
  refine ⟨by decide, by decide, by decide⟩

/-- C1 as amended: `filter_emails` applies each key at its position in
the FilterSpec's iteration order; when the `limit` key comes after all
other keys (as the CLI arranges), the output is the first N records of
the fully filtered sequence, in original order. -/
theorem limit_last_truncates_filtered (eng : RegexEngine) (es : List Email)
    (fs : List FilterKV) (n : Int) (hn : 0 < n) :
    filter_emails eng (fs ++ [.limit (some n)]) es =
      (filter_emails eng fs es).take n.toNat := by
  unfold filter_emails
  rw [List.foldl_append]
  have hn0 : ¬ n = 0 := by omega
  simp [applyFilterStep, hn0, pySliceTo, hn.le]

/-- C1 witness: the amended statement at a concrete dataset and spec. -/
theorem limit_last_truncates_filtered_witness :
    (0 : Int) < 1 ∧
    filter_emails substrEngine ([.has_body true] ++ [.limit (some 1)]) [e1, e2] = [e2] :=
  ⟨by decide,
    (limit_last_truncates_filtered substrEngine [e1, e2] [.has_body true] 1 (by decide)).trans
      (by decide)⟩

/-! ### C2 -/

/-- C2: the four specified evaluations of `extract_domain`, and in
general: `"unknown"` comes from the empty-input branch alone, while a
non-empty input yields `"malformed"` when no address-like token (or no
`@`-suffix inside the token) is found, and otherwise the lower-cased
`@`-suffix of the first address-like token. -/
theorem extract_domain_spec (s : String) (hs : s ≠ "") :
    extract_domain "Name <user@Example.COM>" = "example.com" ∧
    extract_domain "" = "unknown" ∧
    extract_domain "not an address" = "malformed" ∧
    extract_domain "user@" = "malformed" ∧
    (findToken s.data = none → extract_domain s = "malformed") ∧
    (∀ tok, findToken s.data = some tok → findDomain tok = none →
      extract_domain s = "malformed") ∧
    (∀ tok dom, findToken s.data = some tok → findDomain tok = some dom →
      extract_domain s = ⟨dom.map lowerChar⟩) := by
  refine ⟨by decide, by decide, by decide, by decide, ?_, ?_, ?_⟩
  · intro h; simp [extract_domain, hs, h]
  · intro tok h1 h2; simp [extract_domain, hs, h1, h2]
  · intro tok dom h1 h2; simp [extract_domain, hs, h1, h2]

/-- C2 witness: the general clauses at a concrete non-empty input. -/
theorem extract_domain_spec_witness :
    ("x@y.Z" : String) ≠ "" ∧ extract_domain "x@y.Z" = "y.z" := by
  refine ⟨by decide, ?_⟩
  have h := extract_domain_spec "x@y.Z" (by decide)
  exact (h.2.2.2.2.2.2 "x@y.Z".data "y.Z".data (by decide) (by decide)).trans (by decide)

/-! ### C3 -/

/-- A record whose domain ends in a parenthesis. -/
def eParen : Email := { from_domain := "x(" }

/-- A record whose domain is a single parenthesis. -/
def eParen2 : Email := { from_domain := "(" }

/-- C3 counterexample: the pattern `"*.("` fails to compile as a regex
(nothing to repeat), yet the domain predicate takes the wildcard branch
and keeps a record that is not case-insensitively equal to the
pattern. -/
theorem invalid_wildcard_pattern_not_exact_fallback :
    neverCompiles.compiles "*.(" = false ∧
    domainFilter neverCompiles "*.(" [eParen] = [eParen] ∧
    [eParen].filter (fun e => pyLower e.from_domain == pyLower "*.(") = [] ∧
    domainFilter neverCompiles "*.(" [eParen] ≠
      [eParen].filter (fun e => pyLower e.from_domain == pyLower "*.(") := by
  refine ⟨rfl, by decide, by decide, by decide⟩

/-- C3 as amended: for every domain pattern that does not begin with the
wildcard prefix and fails to compile as a regular expression, the
domain predicate does not raise and keeps exactly the records whose
`from_domain` equals the pattern case-insensitively. -/
theorem invalid_regex_falls_back_to_exact (eng : RegexEngine) (pat : String)
    (es : List Email) (hc : eng.compiles pat = false)
    (hw : strStartsWith pat "*." = false) :
    domainFilter eng pat es =
      es.filter (fun e => pyLower e.from_domain == pyLower pat) := by
  simp [domainFilter, hw, hc]

/-- C3 witness: the amended statement at a concrete uncompilable
pattern. -/
theorem invalid_regex_falls_back_to_exact_witness :
    neverCompiles.compiles "(" = false ∧ strStartsWith "(" "*." = false ∧
    domainFilter neverCompiles "(" [eParen, eParen2] = [eParen2] := by
  refine ⟨rfl, by decide, ?_⟩
  exact (invalid_regex_falls_back_to_exact neverCompiles "(" [eParen, eParen2] rfl
    (by decide)).trans (by decide)

/-! ### C4 and C10: wildcard domain matching -/

lemma strStartsWith_wild (suf : String) : strStartsWith ("*." ++ suf) "*." = true := by
  unfold strStartsWith
  rw [show ("*." : String).data = ['*', '.'] from rfl, String.data_append,
    List.isPrefixOf_iff_prefix]
  exact ⟨suf.data, rfl⟩

lemma strDrop_wild (suf : String) : strDrop ("*." ++ suf) 2 = suf := by
  unfold strDrop
  rw [String.data_append, show ("*." : String).data = ['*', '.'] from rfl]
  rfl

lemma strEndsWith_refl (s : String) : strEndsWith s s = true := by
  unfold strEndsWith
  rw [List.isSuffixOf_iff_suffix]

lemma domainFilter_wildcard (eng : RegexEngine) (es : List Email) (suf : String) :
    domainFilter eng ("*." ++ suf) es =
      es.filter (fun e => strEndsWith (pyLower e.from_domain) (pyLower suf)) := by
  rw [domainFilter, if_pos (strStartsWith_wild suf), strDrop_wild]

lemma domainMatchesPattern_wildcard (d suf : String) :
    domainMatchesPattern d ("*." ++ suf) = strEndsWith d (pyLower suf) := by
  rw [domainMatchesPattern, if_pos (strStartsWith_wild suf), strDrop_wild]

/-- C4: a pattern with the wildcard prefix keeps exactly the records
whose lower-cased `from_domain` ends with the lower-cased suffix after
the prefix; `"*.edu"` matches `"cs.wsu.edu"` and not `"wsu.edu.com"`. -/
theorem wildcard_suffix_semantics (eng : RegexEngine) (es : List Email) (suf : String) :
    domainFilter eng ("*." ++ suf) es =
      es.filter (fun e => strEndsWith (pyLower e.from_domain) (pyLower suf)) ∧
    strEndsWith (pyLower "cs.wsu.edu") (pyLower "edu") = true ∧
    strEndsWith (pyLower "wsu.edu.com") (pyLower "edu") = false ∧
    domainFilter substrEngine "*.edu"
        [{ from_domain := "cs.wsu.edu" }, { from_domain := "wsu.edu.com" }] =
      [{ from_domain := "cs.wsu.edu" }] :=
  ⟨domainFilter_wildcard eng es suf, by decide, by decide, by decide⟩

/-- A record whose domain is exactly the wildcard suffix. -/
def eEdu : Email := { from_domain := "edu" }

/-- A record whose domain ends in the suffix without a dot boundary. -/
def eFake : Email := { from_domain := "fakeedu" }

/-- A config ignoring `*.edu` senders. -/
def cfgIgnoreEdu : ConfigFilters := { ignore_from_domains := some ["*.edu"] }

/-- C10: the wildcard match imposes no dot boundary, in the filter
engine and in the config exclusion predicate alike: matching is bare
suffix containment, a domain exactly equal to the suffix matches, and
concretely `"*.edu"` matches `"edu"` and `"fakeedu"` in both
components. -/
theorem wildcard_no_dot_boundary :
    (∀ d suf : String, domainMatchesPattern (pyLower d) ("*." ++ suf) =
      strEndsWith (pyLower d) (pyLower suf)) ∧
    (∀ (eng : RegexEngine) (es : List Email) (suf : String),
      domainFilter eng ("*." ++ suf) es =
        es.filter (fun e => strEndsWith (pyLower e.from_domain) (pyLower suf))) ∧
    (∀ suf : String, domainMatchesPattern (pyLower suf) ("*." ++ suf) = true) ∧
    domainFilter substrEngine "*.edu" [eEdu, eFake] = [eEdu, eFake] ∧
    should_filter_email eEdu cfgIgnoreEdu = true ∧
    should_filter_email eFake cfgIgnoreEdu = true := by
  refine ⟨fun d suf => domainMatchesPattern_wildcard (pyLower d) suf,
    fun eng es suf => domainFilter_wildcard eng es suf, fun suf => ?_, by decide, by decide,
    by decide⟩
  rw [domainMatchesPattern_wildcard]
  exact strEndsWith_refl (pyLower suf)

/-! ### C5 -/

/-- C5: for a non-empty pattern the compiled query keeps, in original
order, exactly the records whose subject matches, or whose `has_body`
is set and whose body matches; a record with `has_body` unset is never
selected through its body text. -/
theorem query_matches_subject_or_body (eng : RegexEngine) (es : List Email)
    (p : String) (cs : Bool) (hp : p ≠ "") (hc : eng.compiles p = true) :
    query_emails eng es (some p) cs =
      .ok (es.filter fun e =>
        eng.search cs p e.subject || (e.has_body && eng.search cs p e.body)) ∧
    (es.filter fun e =>
        eng.search cs p e.subject || (e.has_body && eng.search cs p e.body)).Sublist es ∧
    (∀ e, e.has_body = false → eng.search cs p e.subject = false →
      e ∉ (es.filter fun e =>
        eng.search cs p e.subject || (e.has_body && eng.search cs p e.body))) := by
  refine ⟨by simp [query_emails, hp, hc], List.filter_sublist es, ?_⟩
  intro e hb hs hmem
  have h := (List.mem_filter.mp hmem).2
  simp [hb, hs] at h

/-- A record matching through its subject. -/
def eSubj : Email := { subject := "say hello" }

/-- A record with stale body text and `has_body` unset. -/
def eStale : Email := { subject := "x", body := "hello there", has_body := false }

/-- A record matching through its body. -/
def eBody : Email := { subject := "y", body := "oh hello", has_body := true }

/-- C5 witness: the substring engine at a concrete dataset — the stale
body is not matched. -/
theorem query_matches_subject_or_body_witness :
    ("hello" : String) ≠ "" ∧ substrEngine.compiles "hello" = true ∧
    query_emails substrEngine [eSubj, eStale, eBody] (some "hello") false =
      .ok [eSubj, eBody] := by
  refine ⟨by decide, rfl, ?_⟩
  exact (query_matches_subject_or_body substrEngine [eSubj, eStale, eBody] "hello" false
    (by decide) rfl).1.trans (congrArg Except.ok (by decide))

/-! ### C6 -/

/-- C6: when a non-empty `include_from_domains` list is configured and
the record's domain matches none of its patterns, `should_filter_email`
returns `true` no matter what the rest of the config (in particular the
ignore lists) contains. -/
theorem include_list_miss_excludes (e : Email) (f : ConfigFilters) (l : List String)
    (hl : f.include_from_domains = some l) (hne : l ≠ [])
    (hfail : ∀ p ∈ l, domainMatchesPattern (pyLower e.from_domain) p = false) :
    should_filter_email e f = true := by
  have hany : (l.any fun p => domainMatchesPattern (pyLower e.from_domain) p) = false := by
    rw [List.any_eq_false]
    intro p hp
    simp [hfail p hp]
  have hemp : l.isEmpty = false := by
    cases l with
    | nil => exact absurd rfl hne
    | cons a t => rfl
  unfold should_filter_email
  by_cases hig : ((f.ignore_from_domains.getD (f.ignore_domains.getD [])).any
      fun p => domainMatchesPattern (pyLower e.from_domain) p) = true
  · simp [hig]
  · simp only [Bool.not_eq_true] at hig
    simp [hig, hl, hany, hemp]

/-- C6 witness: a record failing the single include pattern is excluded
even though the ignore list would not have excluded it. -/
theorem include_list_miss_excludes_witness :
    should_filter_email { from_domain := "b.org" }
      { include_from_domains := some ["a.com"], ignore_from_domains := some [] } = true :=
  include_list_miss_excludes _ _ ["a.com"] rfl (by decide) (by decide)

/-! ### C8 -/

/-- C8: in every record built from a store row, `has_body` is computed
as the truthiness of the joined body content and therefore holds
exactly when the record's `body` is a non-empty string. -/
theorem has_body_iff_body_nonempty (r : GlodaRow) :
    (rowToEmail r).has_body = pyBoolOptStr r.body_text ∧
    ((rowToEmail r).has_body = true ↔ (rowToEmail r).body ≠ "") := by
  refine ⟨rfl, ?_⟩
  cases hb : r.body_text with
  | none => simp [rowToEmail, hb, pyBoolOptStr]
  | some s => simp [rowToEmail, hb, pyBoolOptStr]

/-! ### C9 -/

lemma foldl_skip_filter {α β : Type} (f : β → α → β) (p : α → Bool)
    (hf : ∀ b a, p a = false → f b a = b) :
    ∀ (l : List α) (b : β), l.foldl f b = (l.filter p).foldl f b := by
  intro l
  induction l with
  | nil => intro b; rfl
  | cons a t ih =>
    intro b
    cases hp : p a with
    | true => simp [List.filter_cons, hp, ih]
    | false => simp [List.filter_cons, hp, hf b a hp, ih]

/-- C9: every temporal aggregation equals the same aggregation over
only the records whose date parses — a record with an unparseable date
contributes to no bucket of the year, month, weekday or hour analyses
(and, the functions being total, never causes an error), while all
other records are aggregated normally. -/
theorem temporal_aggregations_skip_unparseable (es : List Email) (y : Option Int) :
    analyze_by_year es =
      analyze_by_year (es.filter fun e => (parse_email_date e.date).isSome) ∧
    analyze_by_month es y =
      analyze_by_month (es.filter fun e => (parse_email_date e.date).isSome) y ∧
    analyze_by_weekday es =
      analyze_by_weekday (es.filter fun e => (parse_email_date e.date).isSome) ∧
    analyze_by_hour es =
      analyze_by_hour (es.filter fun e => (parse_email_date e.date).isSome) := by
  refine ⟨?_, ?_, ?_, ?_⟩
  · unfold analyze_by_year
    apply foldl_skip_filter
    intro b a hpa
    cases h : parse_email_date a.date with
    | some dt => rw [h] at hpa; simp at hpa
    | none => simp [h]
  · unfold analyze_by_month
    apply foldl_skip_filter
    intro b a hpa
    cases h : parse_email_date a.date with
    | some dt => rw [h] at hpa; simp at hpa
    | none => simp [h]
  · unfold analyze_by_weekday
    apply foldl_skip_filter
    intro b a hpa
    cases h : parse_email_date a.date with
    | some dt => rw [h] at hpa; simp at hpa
    | none => simp [h]
  · unfold analyze_by_hour
    apply foldl_skip_filter
    intro b a hpa
    cases h : parse_email_date a.date with
    | some dt => rw [h] at hpa; simp at hpa
    | none => simp [h]

end ThunderMuscle
